import Mathlib

/-!
Verification development for the identifier localization and redaction
pipeline of an Aadhaar masking service.  The Python sources are embedded
shallowly:

* character classes model the ASCII fragment of the Python regex classes;
* `strategyA` models the whole-token test of src/utils/solution1.py, which is
  repeated verbatim in src/utils/traditional_methods.py;
* namespace `Solution2` models the multi-token aggregation of
  src/utils/solution2.py, repeated verbatim in src/utils/layoutlm.py;
* namespace `Genai` models the oracle-assisted localization of
  src/utils/genai_method.py;
* `Image` and `renderAll` model the pixel buffer and the filled-rectangle
  painting done by cv2.rectangle and PIL ImageDraw.rectangle.

External collaborators (the image decoder, the OCR engines, the recognition
oracle) enter the models as parameters, following the interface the spec
assigns them.
-/

/-- ASCII model of the Python regex word-character class. -/
def isWordChar (c : Char) : Bool := c.isAlphanum || c == '_'

/-- ASCII model of the Python regex whitespace class. -/
def isSpaceChar (c : Char) : Bool :=
  c == ' ' || c == '\t' || c == '\n' || c == '\r' || c == '\x0b' || c == '\x0c'

/-- Model of the Python str.isdigit test for ASCII text: nonempty and all
digits.  In solution2.py line 29 the buffering condition is
word.strip() and word.isdigit(); for a nonempty all-digit word the strip()
part is automatically truthy, so this single test is the exact condition. -/
def isPyDigitStr (w : List Char) : Bool := !w.isEmpty && w.all Char.isDigit

/-- Four characters, all digits: one group of the Aadhaar surface pattern. -/
def group4 (s : List Char) : Bool := decide (s.length = 4) && s.all Char.isDigit

/-- Head of the list exists and is a regex whitespace character. -/
def headIsSpace (s : List Char) : Bool :=
  match s with
  | [] => false
  | c :: _ => isSpaceChar c

/-- Word boundary after a word character: end of text, or a non-word
character at the head of the remaining text. -/
def boundaryAfter (s : List Char) : Bool :=
  match s with
  | [] => true
  | c :: _ => !isWordChar c

/-- Semantics of the first Strategy A regex of solution1.py line 44, word
boundary, twelve digits, word boundary, under re.match, which anchors at the
start of the text only.  The leading boundary is implied by the first
character being a digit; the trailing boundary requires end of text or a
non-word character right after the twelve digits. -/
def matchTwelve (s : List Char) : Bool :=
  decide ((s.take 12).length = 12) && (s.take 12).all Char.isDigit &&
    boundaryAfter (s.drop 12)

/-- Semantics of the second Strategy A regex of solution1.py line 44, three
groups of four digits separated by single whitespace characters, under
re.match: a prefix match, with arbitrary text allowed after position 13. -/
def matchSpaced (s : List Char) : Bool :=
  group4 (s.take 4) && headIsSpace (s.drop 4) && group4 ((s.drop 5).take 4) &&
    headIsSpace (s.drop 9) && group4 ((s.drop 10).take 4)

/-- Strategy A token test of solution1.py line 44 and traditional_methods.py
line 42: either regex firing on the token text. -/
def strategyA (s : List Char) : Bool := matchTwelve s || matchSpaced s

/-- Modelled from the spec wording for claim C1: text that is exactly twelve
contiguous digits. -/
def exactTwelveDigits (s : List Char) : Bool :=
  decide (s.length = 12) && s.all Char.isDigit

/-- Modelled from the spec wording for claim C1: text that is exactly three
groups of four digits separated by single spaces. -/
def exactSpaced444 (s : List Char) : Bool :=
  group4 (s.take 4) && decide ((s.drop 4).head? = some ' ') &&
    group4 ((s.drop 5).take 4) && decide ((s.drop 9).head? = some ' ') &&
    group4 ((s.drop 10).take 4) && decide (s.length = 14)

/-- Spec-side Strategy A predicate: the two accepted surface forms of claim
C1, each required to cover the whole token text. -/
def specFormA (s : List Char) : Bool := exactTwelveDigits s || exactSpaced444 s

/-- Semantics of AADHAAR_REGEX.fullmatch in solution2.py line 39 and
layoutlm.py line 38.  AADHAAR_REGEX is word boundary, four digits, whitespace,
four digits, whitespace, four digits, word boundary.  A full match pins the
length to exactly 14, and the two boundaries are then automatic because the
outermost matched characters are digits standing at the ends of the text. -/
def fullmatch444 (s : List Char) : Bool := matchSpaced s && decide (s.length = 14)

/-- Axis-aligned rectangle in pixel coordinates. -/
structure Box where
  x1 : Int
  y1 : Int
  x2 : Int
  y2 : Int
deriving DecidableEq

/-- Pixel membership in a filled rectangle.  cv2.rectangle with thickness -1
and PIL ImageDraw.rectangle both include both corner coordinates. -/
def coversB (b : Box) (x y : Int) : Bool :=
  decide (b.x1 ≤ x) && decide (x ≤ b.x2) && decide (b.y1 ≤ y) && decide (y ≤ b.y2)

/-- Decoded pixel buffer.  A pixel value abstracts the colour triple, with 0
standing for opaque black. -/
structure Image where
  width : Int
  height : Int
  pix : Int → Int → Nat

/-- Pixel coordinate lies inside the buffer. -/
def inImage (img : Image) (x y : Int) : Bool :=
  decide (0 ≤ x) && decide (x < img.width) && decide (0 ≤ y) && decide (y < img.height)

/-- Redaction Renderer: paints every listed rectangle with opaque black on a
copy of the image.  The drawing primitives write only pixels that exist in
the buffer, which the in-bounds guard models. -/
def renderAll (img : Image) (rs : List Box) : Image :=
  Image.mk img.width img.height (fun x y =>
    if inImage img x y && rs.any (fun r => coversB r x y) then 0 else img.pix x y)

/-- Rectangle clipped to the bounds of the image, phrased on inclusive pixel
ranges. -/
def clampRect (img : Image) (b : Box) : Box :=
  Box.mk (max b.x1 0) (max b.y1 0) (min b.x2 (img.width - 1)) (min b.y2 (img.height - 1))

/-- Spec-side invariant of claim C7: the rectangle lies inside the bounds
0 to w and 0 to h and has non-negative width and height. -/
def withinBounds (b : Box) (w h : Int) : Bool :=
  decide (0 ≤ b.x1) && decide (b.x1 ≤ b.x2) && decide (b.x2 ≤ w) &&
    decide (0 ≤ b.y1) && decide (b.y1 ≤ b.y2) && decide (b.y2 ≤ h)

/-- One tesseract token out of image_to_data: the text entry together with
the left, top, width and height entries at the same index. -/
structure OcrTok where
  text : List Char
  left : Int
  top : Int
  w : Int
  h : Int

namespace Solution1

/-- One OCR result as consumed by process_aadhar_image in solution1.py:
either an easyocr tuple carrying a four-corner polygon, or the pytesseract
fallback list carrying top-left and bottom-right corners.  Coordinates are
taken after the int() conversions of the source. -/
inductive OcrResult where
  | quad (p1 p2 p3 p4 : Int × Int) (text : List Char) (conf : Int)
  | flat (tl br : Int × Int) (text : List Char) (conf : Int)

/-- Model of int(0.66 * w) at solution1.py line 49.  The literal 0.66 equals
33/50 exactly as a rational, and for pixel magnitudes the double-precision
product truncates to the same integer as the rational product, toward zero. -/
def pyTrunc066 (w : Int) : Int :=
  if 0 ≤ w then ((33 * w.toNat) / 50 : Nat) else -(((33 * (-w).toNat) / 50 : Nat))

/-- Region computed for one OCR result by the loop body of solution1.py lines
41 to 58: on a Strategy A text match, keep the top-left corner and the bottom
edge, and truncate the right edge to 66 percent of the text width. -/
def regionOfResult (r : OcrResult) : Option Box :=
  match r with
  | .quad p1 _ p3 _ text _ =>
      if strategyA text then
        some (Box.mk p1.1 p1.2 (p1.1 + pyTrunc066 (p3.1 - p1.1)) p3.2)
      else none
  | .flat tl br text _ =>
      if strategyA text then
        some (Box.mk tl.1 tl.2 (tl.1 + pyTrunc066 (br.1 - tl.1)) br.2)
      else none

/-- Regions handed to the renderer for a whole result list. -/
def collectRegions (results : List OcrResult) : List Box :=
  results.filterMap regionOfResult

/-- Python exception surfaced by the pipeline: a FastAPI HTTPException with a
status code and a detail string. -/
inductive PyExc where
  | http (status : Nat) (detail : String)
deriving DecidableEq

/-- Model of str(e) for an HTTPException: status code, colon, detail. -/
def strExc (e : PyExc) : String :=
  match e with
  | .http c d => toString c ++ ": " ++ d

/-- Model of process_aadhar_image in solution1.py.  Decoding and OCR are
external collaborators, so the decoded image and the OCR result list are
parameters.  The body raises HTTP 400 when decoding fails (line 18); the
blanket handler at lines 61 to 62 catches every exception, HTTPException
included, and re-raises HTTP 500 wrapping the string form of the caught
exception. -/
def process_aadhar_image (decoded : Option Image) (results : List OcrResult) :
    Except PyExc Image :=
  let body : Except PyExc Image :=
    match decoded with
    | none => Except.error (PyExc.http 400 "Invalid image data")
    | some img => Except.ok (renderAll img (collectRegions results))
  match body with
  | Except.ok i => Except.ok i
  | Except.error e =>
      Except.error (PyExc.http 500 ("Error processing image: " ++ strExc e))

end Solution1

namespace Solution2

/-- Bounding box recorded for a buffered token at solution2.py lines 31
to 36. -/
def bboxOfTok (t : OcrTok) : Box :=
  Box.mk t.left t.top (t.left + t.w) (t.top + t.h)

/-- Fold state of the scan in extract_text_and_bboxes: the emitted texts and
boxes, and the buffer of consecutive numeric tokens with their boxes. -/
structure BState where
  texts : List (List Char)
  boxes : List Box
  curToks : List (List Char)
  curBoxes : List Box
deriving DecidableEq

/-- Python join of the buffered texts with single spaces. -/
def joinSp : List (List Char) → List Char
  | [] => []
  | [g] => g
  | g :: gs => g ++ ' ' :: joinSp gs

/-- Union bounding box of the first two buffered boxes, solution2.py lines 41
to 44: min and max over current_bboxes sliced to its first two entries.  On
an empty buffer Python would raise on min of an empty sequence; that case is
unreachable because a flush emits only when the joined buffer text fully
matches, which forces exactly three buffered tokens. -/
def unionFirstTwo : List Box → Box
  | b1 :: b2 :: _ =>
      Box.mk (min b1.x1 b2.x1) (min b1.y1 b2.y1) (max b1.x2 b2.x2) (max b1.y2 b2.y2)
  | [b1] => b1
  | [] => Box.mk 0 0 0 0

/-- One loop iteration of extract_text_and_bboxes, solution2.py lines 28 to
46: numeric tokens are buffered, and any other token flushes, emitting the
joined text and the union box when the joined text fully matches the
pattern, and resetting the buffer either way. -/
def step (st : BState) (t : OcrTok) : BState :=
  if isPyDigitStr t.text then
    BState.mk st.texts st.boxes (st.curToks ++ [t.text]) (st.curBoxes ++ [bboxOfTok t])
  else
    if fullmatch444 (joinSp st.curToks) then
      BState.mk (st.texts ++ [joinSp st.curToks]) (st.boxes ++ [unionFirstTwo st.curBoxes]) [] []
    else
      BState.mk st.texts st.boxes [] []

/-- Fold of step over the token stream, starting from the empty state. -/
def extractState (ts : List OcrTok) : BState :=
  ts.foldl step (BState.mk [] [] [] [])

/-- Model of extract_text_and_bboxes: the emitted texts and boxes; a buffer
still pending at end of stream is discarded, exactly as in the source, whose
loop performs no final flush. -/
def extract_text_and_bboxes (ts : List OcrTok) : List (List Char) × List Box :=
  ((extractState ts).texts, (extractState ts).boxes)

/-- Model of mask_aadhaar in solution2.py lines 51 to 67: when nothing was
extracted return no output, otherwise paint every extracted box black. -/
def mask_aadhaar (img : Image) (ts : List OcrTok) : Option Image :=
  if (extract_text_and_bboxes ts).1.isEmpty then none
  else some (renderAll img (extract_text_and_bboxes ts).2)

end Solution2

namespace Genai

/-- Substring test, model of the Python in operator on strings. -/
def substrAt (needle : List Char) : List Char → Bool
  | [] => needle.isEmpty
  | c :: t => needle.isPrefixOf (c :: t) || substrAt needle t

/-- Cleaning applied to one token text at genai_method.py line 116: every
space, apostrophe and hyphen removed. -/
def cleanFragment (w : List Char) : List Char :=
  w.filter (fun c => !(c == ' ' || c == '\x27' || c == '-'))

/-- Concatenation of all purely numeric token texts, genai_method.py
line 106. -/
def normalizedDigitText (toks : List OcrTok) : List Char :=
  ((toks.filter (fun t => isPyDigitStr t.text)).map OcrTok.text).flatten

/-- Inner loop of find_aadhaar_coordinates, lines 114 to 120: the first token
whose cleaned text contains the normalized value, returning its raw left,
top, width and height entries. -/
def findLoop (a : List Char) : List OcrTok → Option (Int × Int × Int × Int)
  | [] => none
  | t :: ts =>
      if substrAt a (cleanFragment t.text) then some (t.left, t.top, t.w, t.h)
      else findLoop a ts

/-- Model of find_aadhaar_coordinates, genai_method.py lines 89 to 126, with
the OCR token stream as a parameter.  The token loop runs only when the
normalized value occurs in the concatenation of the digit-only texts; if that
gate fails, or the loop finds nothing, the function returns nothing. -/
def find_aadhaar_coordinates (toks : List OcrTok) (aadhaar : List Char) :
    Option (Int × Int × Int × Int) :=
  let a := aadhaar.filter (fun c => !(c == ' '))
  if substrAt a (normalizedDigitText toks) then findLoop a toks else none

/-- Model of mask_aadhaar_number, genai_method.py lines 129 to 161: on
localization failure no output image is produced, and on success the single
recovered rectangle is painted black. -/
def mask_aadhaar_number (img : Image) (toks : List OcrTok) (aadhaar : List Char) :
    Option Image :=
  match find_aadhaar_coordinates toks aadhaar with
  | none => none
  | some (x, y, w, h) => some (renderAll img [Box.mk x y (x + w) (y + h)])

end Genai

/-- Structural reading of the first Strategy A regex under re.match: the text
starts with twelve digits followed by a word boundary, with arbitrary further
text allowed after that boundary. -/
def TwelveDigitStart (s : List Char) : Prop :=
  ∃ ds rest, s = ds ++ rest ∧ ds.length = 12 ∧ ds.all Char.isDigit = true ∧
    (rest = [] ∨ ∃ c rest2, rest = c :: rest2 ∧ isWordChar c = false)

/-- Structural reading of the second Strategy A regex under re.match: the
text starts with three groups of four digits separated by single whitespace
characters, with arbitrary trailing text allowed. -/
def Spaced444Start (s : List Char) : Prop :=
  ∃ g1 w1 g2 w2 g3 rest, s = g1 ++ w1 :: (g2 ++ w2 :: (g3 ++ rest)) ∧
    group4 g1 = true ∧ isSpaceChar w1 = true ∧ group4 g2 = true ∧
    isSpaceChar w2 = true ∧ group4 g3 = true

namespace Solution2

/-- Invariant of the scan state: every buffered text is a nonempty all-digit
word, and there is exactly one buffered box per buffered text. -/
def BInv (st : BState) : Prop :=
  (∀ g ∈ st.curToks, isPyDigitStr g = true) ∧ st.curToks.length = st.curBoxes.length

end Solution2

/-- Status projection of a pipeline outcome, used to compare surfaced
errors. -/
def Solution1.errStatus : Except Solution1.PyExc Image → Option Nat
  | Except.error (Solution1.PyExc.http c _) => some c
  | Except.ok _ => none

/-- Concrete token carrying the first identifier group, used to evaluate the
scan on a concrete stream. -/
def tok1234 : OcrTok := OcrTok.mk ("1234").data 0 0 10 10

/-- Concrete token carrying the second identifier group. -/
def tok5678 : OcrTok := OcrTok.mk ("5678").data 12 0 10 10

/-- Concrete token carrying the third identifier group. -/
def tok9012 : OcrTok := OcrTok.mk ("9012").data 24 0 10 10

/-- Concrete non-numeric separator token. -/
def tokSep : OcrTok := OcrTok.mk ("x").data 40 0 5 5

/-- Concrete stream holding the identifier split into three groups. -/
def toks444 : List OcrTok := [tok1234, tok5678, tok9012]

/-! Supporting lemmas. -/

lemma isSpaceChar_not_digit {c : Char} (h : isSpaceChar c = true) : c.isDigit = false := by
  simp only [isSpaceChar, Bool.or_eq_true, beq_iff_eq] at h
  rcases h with ((((h | h) | h) | h) | h) | h <;> subst h <;> decide

lemma group4_iff {g : List Char} :
    group4 g = true ↔ g.length = 4 ∧ g.all Char.isDigit = true := by
  simp [group4]

lemma boundaryAfter_iff {l : List Char} :
    boundaryAfter l = true ↔ l = [] ∨ ∃ c t, l = c :: t ∧ isWordChar c = false := by
  cases l <;> simp [boundaryAfter]

lemma headIsSpace_iff {l : List Char} :
    headIsSpace l = true ↔ ∃ c t, l = c :: t ∧ isSpaceChar c = true := by
  cases l <;> simp [headIsSpace]

lemma length_eq_three {α : Type} {l : List α} (h : l.length = 3) :
    ∃ a b c, l = [a, b, c] := by
  rcases l with _ | ⟨a, l⟩
  · simp at h
  rcases l with _ | ⟨b, l⟩
  · simp at h
  rcases l with _ | ⟨c, l⟩
  · simp at h
  rcases l with _ | ⟨d, l⟩
  · exact ⟨a, b, c, rfl⟩
  · simp at h

lemma matchTwelve_iff {s : List Char} : matchTwelve s = true ↔ TwelveDigitStart s := by
  constructor
  · intro h
    simp only [matchTwelve, Bool.and_eq_true, decide_eq_true_eq] at h
    obtain ⟨⟨h1, h2⟩, h3⟩ := h
    exact ⟨s.take 12, s.drop 12, (List.take_append_drop 12 s).symm, h1, h2,
      boundaryAfter_iff.mp h3⟩
  · rintro ⟨ds, rest, rfl, hlen, hdig, hb⟩
    simp only [matchTwelve, Bool.and_eq_true, decide_eq_true_eq]
    rw [List.take_left' hlen, List.drop_left' hlen]
    exact ⟨⟨hlen, hdig⟩, boundaryAfter_iff.mpr hb⟩

lemma matchSpaced_iff {s : List Char} : matchSpaced s = true ↔ Spaced444Start s := by
  constructor
  · intro h
    simp only [matchSpaced, Bool.and_eq_true] at h
    obtain ⟨⟨⟨⟨hg1, hw1⟩, hg2⟩, hw2⟩, hg3⟩ := h
    obtain ⟨w1, t4, hd4, hsp1⟩ := headIsSpace_iff.mp hw1
    obtain ⟨w2, t9, hd9, hsp2⟩ := headIsSpace_iff.mp hw2
    have ht4 : t4 = s.drop 5 := by
      have : (s.drop 4).drop 1 = s.drop 5 := by rw [List.drop_drop]
      rw [hd4] at this
      simpa using this
    have ht9 : t9 = s.drop 10 := by
      have : (s.drop 9).drop 1 = s.drop 10 := by rw [List.drop_drop]
      rw [hd9] at this
      simpa using this
    have hd9' : (s.drop 5).drop 4 = s.drop 9 := by rw [List.drop_drop]
    refine ⟨s.take 4, w1, (s.drop 5).take 4, w2, (s.drop 10).take 4, s.drop 14, ?_,
      hg1, hsp1, hg2, hsp2, hg3⟩
    have e1 : s = s.take 4 ++ s.drop 4 := (List.take_append_drop 4 s).symm
    have e2 : s.drop 5 = (s.drop 5).take 4 ++ (s.drop 5).drop 4 :=
      (List.take_append_drop 4 (s.drop 5)).symm
    have e3 : s.drop 10 = (s.drop 10).take 4 ++ (s.drop 10).drop 4 :=
      (List.take_append_drop 4 (s.drop 10)).symm
    have e4 : (s.drop 10).drop 4 = s.drop 14 := by rw [List.drop_drop]
    calc s = s.take 4 ++ s.drop 4 := e1
    _ = s.take 4 ++ w1 :: t4 := by rw [hd4]
    _ = s.take 4 ++ w1 :: s.drop 5 := by rw [ht4]
    _ = s.take 4 ++ w1 :: ((s.drop 5).take 4 ++ s.drop 9) := by rw [← hd9', ← e2]
    _ = s.take 4 ++ w1 :: ((s.drop 5).take 4 ++ (w2 :: s.drop 10)) := by
        rw [hd9, ht9]
    _ = s.take 4 ++ w1 :: ((s.drop 5).take 4 ++
          (w2 :: ((s.drop 10).take 4 ++ s.drop 14))) := by rw [← e4, ← e3]
  · rintro ⟨g1, w1, g2, w2, g3, rest, rfl, hg1, hsp1, hg2, hsp2, hg3⟩
    have l1 : g1.length = 4 := (group4_iff.mp hg1).1
    have l2 : g2.length = 4 := (group4_iff.mp hg2).1
    have l3 : g3.length = 4 := (group4_iff.mp hg3).1
    have d4 : (g1 ++ w1 :: (g2 ++ w2 :: (g3 ++ rest))).drop 4 =
        w1 :: (g2 ++ w2 :: (g3 ++ rest)) := List.drop_left' l1
    have t4 : (g1 ++ w1 :: (g2 ++ w2 :: (g3 ++ rest))).take 4 = g1 := List.take_left' l1
    have d5 : (g1 ++ w1 :: (g2 ++ w2 :: (g3 ++ rest))).drop 5 =
        g2 ++ w2 :: (g3 ++ rest) := by
      have : ((g1 ++ w1 :: (g2 ++ w2 :: (g3 ++ rest))).drop 4).drop 1 =
          (g1 ++ w1 :: (g2 ++ w2 :: (g3 ++ rest))).drop 5 := by rw [List.drop_drop]
      rw [d4] at this
      simpa using this.symm
    have d9 : (g1 ++ w1 :: (g2 ++ w2 :: (g3 ++ rest))).drop 9 =
        w2 :: (g3 ++ rest) := by
      have : ((g1 ++ w1 :: (g2 ++ w2 :: (g3 ++ rest))).drop 5).drop 4 =
          (g1 ++ w1 :: (g2 ++ w2 :: (g3 ++ rest))).drop 9 := by rw [List.drop_drop]
      rw [d5] at this
      rw [← this, List.drop_left' l2]
    have d10 : (g1 ++ w1 :: (g2 ++ w2 :: (g3 ++ rest))).drop 10 = g3 ++ rest := by
      have : ((g1 ++ w1 :: (g2 ++ w2 :: (g3 ++ rest))).drop 9).drop 1 =
          (g1 ++ w1 :: (g2 ++ w2 :: (g3 ++ rest))).drop 10 := by rw [List.drop_drop]
      rw [d9] at this
      simpa using this.symm
    simp only [matchSpaced, Bool.and_eq_true]
    refine ⟨⟨⟨⟨?_, ?_⟩, ?_⟩, ?_⟩, ?_⟩
    · rw [t4]; exact hg1
    · rw [d4]; simp [headIsSpace, hsp1]
    · rw [d5, List.take_left' l2]; exact hg2
    · rw [d9]; simp [headIsSpace, hsp2]
    · rw [d10, List.take_left' l3]; exact hg3

lemma fullmatch444_iff {s : List Char} :
    fullmatch444 s = true ↔
      ∃ g1 w1 g2 w2 g3, s = g1 ++ w1 :: (g2 ++ w2 :: g3) ∧
        group4 g1 = true ∧ isSpaceChar w1 = true ∧ group4 g2 = true ∧
        isSpaceChar w2 = true ∧ group4 g3 = true := by
  constructor
  · intro h
    simp only [fullmatch444, Bool.and_eq_true, decide_eq_true_eq] at h
    obtain ⟨g1, w1, g2, w2, g3, rest, rfl, hg1, hsp1, hg2, hsp2, hg3⟩ :=
      matchSpaced_iff.mp h.1
    have hrest : rest = [] := by
      have hl := h.2
      simp only [List.length_append, List.length_cons, (group4_iff.mp hg1).1,
        (group4_iff.mp hg2).1, (group4_iff.mp hg3).1] at hl
      have : rest.length = 0 := by omega
      exact List.length_eq_zero.mp this
    subst hrest
    exact ⟨g1, w1, g2, w2, g3, by simp, hg1, hsp1, hg2, hsp2, hg3⟩
  · rintro ⟨g1, w1, g2, w2, g3, rfl, hg1, hsp1, hg2, hsp2, hg3⟩
    simp only [fullmatch444, Bool.and_eq_true, decide_eq_true_eq]
    constructor
    · exact matchSpaced_iff.mpr ⟨g1, w1, g2, w2, g3, [], by simp, hg1, hsp1, hg2, hsp2, hg3⟩
    · simp [List.length_append, (group4_iff.mp hg1).1, (group4_iff.mp hg2).1,
        (group4_iff.mp hg3).1]

lemma isPyDigitStr_all {w : List Char} (h : isPyDigitStr w = true) :
    w.all Char.isDigit = true := by
  simp only [isPyDigitStr, Bool.and_eq_true] at h
  exact h.2

lemma isPyDigitStr_ne_nil {w : List Char} (h : isPyDigitStr w = true) : w ≠ [] := by
  simp only [isPyDigitStr, Bool.and_eq_true, Bool.not_eq_true', List.isEmpty_eq_false] at h
  exact h.1

lemma digit_split_unique :
    ∀ (p p' r r' : List Char) (c c' : Char), p.all Char.isDigit = true →
      p'.all Char.isDigit = true → c.isDigit = false → c'.isDigit = false →
      p ++ c :: r = p' ++ c' :: r' → p = p' ∧ c = c' ∧ r = r' := by
  intro p
  induction p with
  | nil =>
    intro p' r r' c c' _ hp' hc hc' he
    cases p' with
    | nil => simpa using he
    | cons x p'' =>
      exfalso
      simp only [List.nil_append, List.cons_append, List.cons.injEq] at he
      have hx : x.isDigit = true := by
        have := List.all_eq_true.mp hp' x (by simp)
        exact this
      rw [← he.1] at hx
      rw [hc] at hx
      exact Bool.false_ne_true hx
  | cons x p ih =>
    intro p' r r' c c' hp hp' hc hc' he
    cases p' with
    | nil =>
      exfalso
      simp only [List.cons_append, List.nil_append, List.cons.injEq] at he
      have hx : x.isDigit = true := List.all_eq_true.mp hp x (by simp)
      rw [he.1, hc'] at hx
      exact Bool.false_ne_true hx
    | cons y p'' =>
      simp only [List.cons_append, List.cons.injEq] at he
      have hrec := ih p'' r r' c c' (by
          have := hp
          simp only [List.all_cons, Bool.and_eq_true] at this
          exact this.2) (by
          have := hp'
          simp only [List.all_cons, Bool.and_eq_true] at this
          exact this.2) hc hc' he.2
      exact ⟨by rw [he.1, hrec.1], hrec.2.1, hrec.2.2⟩

lemma joinSp_countP {toks : List (List Char)}
    (hall : ∀ g ∈ toks, isPyDigitStr g = true) (hne : toks ≠ []) :
    (Solution2.joinSp toks).countP (fun c => !c.isDigit) = toks.length - 1 := by
  induction toks with
  | nil => exact absurd rfl hne
  | cons g gs ih =>
    cases gs with
    | nil =>
      have hg := isPyDigitStr_all (hall g (by simp))
      simp only [Solution2.joinSp, List.length_cons, List.length_nil]
      rw [List.countP_eq_zero.mpr]
      intro a ha
      simp only [Bool.not_eq_true', Bool.not_eq_false]
      exact List.all_eq_true.mp hg a ha
    | cons g2 gs2 =>
      have hg := isPyDigitStr_all (hall g (by simp))
      have step : Solution2.joinSp (g :: g2 :: gs2) =
          g ++ ' ' :: Solution2.joinSp (g2 :: gs2) := by
        simp [Solution2.joinSp]
      rw [step, List.countP_append, List.countP_cons]
      have hz : g.countP (fun c => !c.isDigit) = 0 := by
        rw [List.countP_eq_zero]
        intro a ha
        simp only [Bool.not_eq_true', Bool.not_eq_false]
        exact List.all_eq_true.mp hg a ha
      have hrec := ih (fun g hg => hall g (by simp [hg])) (by simp)
      rw [hz, hrec]
      simp

lemma fullmatch_joinSp_iff {toks : List (List Char)}
    (hall : ∀ g ∈ toks, isPyDigitStr g = true) :
    fullmatch444 (Solution2.joinSp toks) = true ↔
      ∃ g1 g2 g3, toks = [g1, g2, g3] ∧ group4 g1 = true ∧ group4 g2 = true ∧
        group4 g3 = true := by
  constructor
  · intro h
    obtain ⟨G1, W1, G2, W2, G3, heq, hG1, hW1, hG2, hW2, hG3⟩ := fullmatch444_iff.mp h
    have hne : toks ≠ [] := by
      intro hnil
      rw [hnil] at heq
      simp only [Solution2.joinSp] at heq
      have := congrArg List.length heq
      simp [(group4_iff.mp hG1).1] at this
      omega
    have hcount : (Solution2.joinSp toks).countP (fun c => !c.isDigit) = toks.length - 1 :=
      joinSp_countP hall hne
    have hcount2 : (Solution2.joinSp toks).countP (fun c => !c.isDigit) = 2 := by
      rw [heq, List.countP_append, List.countP_cons, List.countP_append, List.countP_cons]
      have z1 : G1.countP (fun c => !c.isDigit) = 0 := by
        rw [List.countP_eq_zero]
        intro a ha
        simp only [Bool.not_eq_true', Bool.not_eq_false]
        exact List.all_eq_true.mp (group4_iff.mp hG1).2 a ha
      have z2 : G2.countP (fun c => !c.isDigit) = 0 := by
        rw [List.countP_eq_zero]
        intro a ha
        simp only [Bool.not_eq_true', Bool.not_eq_false]
        exact List.all_eq_true.mp (group4_iff.mp hG2).2 a ha
      have z3 : G3.countP (fun c => !c.isDigit) = 0 := by
        rw [List.countP_eq_zero]
        intro a ha
        simp only [Bool.not_eq_true', Bool.not_eq_false]
        exact List.all_eq_true.mp (group4_iff.mp hG3).2 a ha
      rw [z1, z2, z3]
      simp [isSpaceChar_not_digit hW1, isSpaceChar_not_digit hW2]
    have hlen3 : toks.length = 3 := by
      rw [hcount] at hcount2
      have : 0 < toks.length := List.length_pos.mpr hne
      omega
    obtain ⟨t1, t2, t3, rfl⟩ := length_eq_three hlen3
    have hjoin : Solution2.joinSp [t1, t2, t3] = t1 ++ ' ' :: (t2 ++ ' ' :: t3) := by
      simp [Solution2.joinSp]
    rw [hjoin] at heq
    have h1 := digit_split_unique t1 G1 (t2 ++ ' ' :: t3) (G2 ++ W2 :: G3) ' ' W1
      (isPyDigitStr_all (hall t1 (by simp))) (group4_iff.mp hG1).2
      (by decide) (isSpaceChar_not_digit hW1) heq
    have h2 := digit_split_unique t2 G2 t3 G3 ' ' W2
      (isPyDigitStr_all (hall t2 (by simp))) (group4_iff.mp hG2).2
      (by decide) (isSpaceChar_not_digit hW2) h1.2.2
    refine ⟨t1, t2, t3, rfl, ?_, ?_, ?_⟩
    · rw [h1.1]; exact hG1
    · rw [h2.1]; exact hG2
    · rw [h2.2.2]; exact hG3
  · rintro ⟨g1, g2, g3, rfl, hg1, hg2, hg3⟩
    have hjoin : Solution2.joinSp [g1, g2, g3] = g1 ++ ' ' :: (g2 ++ ' ' :: g3) := by
      simp [Solution2.joinSp]
    rw [hjoin]
    exact fullmatch444_iff.mpr ⟨g1, ' ', g2, ' ', g3, rfl, hg1, by decide, hg2, by decide, hg3⟩

lemma binv_step (st : Solution2.BState) (t : OcrTok) (h : Solution2.BInv st) :
    Solution2.BInv (Solution2.step st t) := by
  by_cases hn : isPyDigitStr t.text = true
  · refine ⟨?_, ?_⟩ <;> simp only [Solution2.step, hn, if_true]
    · intro g hg
      simp only [List.mem_append, List.mem_singleton] at hg
      rcases hg with hg | hg
      · exact h.1 g hg
      · rw [hg]; exact hn
    · simp [h.2]
  · rw [Bool.not_eq_true] at hn
    simp only [Solution2.step, hn, Bool.false_eq_true, if_false]
    by_cases hf : fullmatch444 (Solution2.joinSp st.curToks) = true
    · simp only [hf, if_true]
      exact ⟨by simp, by simp⟩
    · rw [Bool.not_eq_true] at hf
      simp only [hf, Bool.false_eq_true, if_false]
      exact ⟨by simp, by simp⟩

lemma binv_foldl (ts : List OcrTok) (st : Solution2.BState) (h : Solution2.BInv st) :
    Solution2.BInv (ts.foldl Solution2.step st) := by
  induction ts generalizing st with
  | nil => exact h
  | cons t ts ih => exact ih _ (binv_step st t h)

lemma binv_extractState (ts : List OcrTok) : Solution2.BInv (Solution2.extractState ts) :=
  binv_foldl ts _ ⟨by simp, rfl⟩

lemma foldl_numeric_no_emit (suffix : List OcrTok) (st : Solution2.BState)
    (h : ∀ t ∈ suffix, isPyDigitStr t.text = true) :
    (suffix.foldl Solution2.step st).texts = st.texts ∧
      (suffix.foldl Solution2.step st).boxes = st.boxes := by
  induction suffix generalizing st with
  | nil => exact ⟨rfl, rfl⟩
  | cons t ts ih =>
    have hn : isPyDigitStr t.text = true := h t (by simp)
    have hrest : ∀ u ∈ ts, isPyDigitStr u.text = true := fun u hu => h u (by simp [hu])
    have hs : Solution2.step st t =
        Solution2.BState.mk st.texts st.boxes (st.curToks ++ [t.text])
          (st.curBoxes ++ [Solution2.bboxOfTok t]) := by
      simp [Solution2.step, hn]
    rw [List.foldl_cons, hs]
    exact ih _ hrest

lemma findLoop_eq_find? (a : List Char) (toks : List OcrTok) :
    Genai.findLoop a toks =
      (toks.find? (fun t => Genai.substrAt a (Genai.cleanFragment t.text))).map
        (fun t => (t.left, t.top, t.w, t.h)) := by
  induction toks with
  | nil => rfl
  | cons t ts ih =>
    by_cases hc : Genai.substrAt a (Genai.cleanFragment t.text) = true
    · simp [Genai.findLoop, hc, List.find?_cons, hc]
    · rw [Bool.not_eq_true] at hc
      simp only [Genai.findLoop, hc, Bool.false_eq_true, if_false, List.find?_cons, hc]
      exact ih

lemma pyTrunc066_eq_floor (w : Int) (hw : 0 ≤ w) :
    Solution1.pyTrunc066 w = ⌊(0.66 : ℚ) * (w : ℚ)⌋ := by
  have h066 : (0.66 : ℚ) = 33 / 50 := by norm_num
  rw [Solution1.pyTrunc066, if_pos hw, h066]
  have hwq : ((w.toNat : ℕ) : ℚ) = (w : ℚ) := by
    have := Int.toNat_of_nonneg hw
    exact_mod_cast this
  have hcast : (33 : ℚ) / 50 * (w : ℚ) = ((33 * w.toNat : ℕ) : ℚ) / 50 := by
    push_cast
    rw [hwq]
    ring
  rw [hcast]
  symm
  rw [Int.floor_eq_iff]
  constructor
  · rw [le_div_iff₀ (by norm_num : (0 : ℚ) < 50)]
    push_cast
    exact_mod_cast Nat.div_mul_le_self (33 * w.toNat) 50
  · rw [div_lt_iff₀ (by norm_num : (0 : ℚ) < 50)]
    have h1 : 50 * (33 * w.toNat / 50) + 33 * w.toNat % 50 = 33 * w.toNat :=
      Nat.div_add_mod (33 * w.toNat) 50
    have h2 : 33 * w.toNat % 50 < 50 := Nat.mod_lt _ (by norm_num)
    have h3 : 33 * w.toNat < (33 * w.toNat / 50 + 1) * 50 := by omega
    push_cast
    exact_mod_cast h3

lemma covers_clamp (img : Image) (b : Box) (x y : Int) (hx : inImage img x y = true) :
    coversB (clampRect img b) x y = coversB b x y := by
  simp only [inImage, Bool.and_eq_true, decide_eq_true_eq] at hx
  rw [Bool.eq_iff_iff]
  simp only [coversB, clampRect, Bool.and_eq_true, decide_eq_true_eq]
  omega

lemma any_covers_clamp (img : Image) (rs : List Box) (x y : Int)
    (hx : inImage img x y = true) :
    ((rs.map (clampRect img)).any fun r => coversB r x y) =
      (rs.any fun r => coversB r x y) := by
  induction rs with
  | nil => rfl
  | cons r rs ih =>
    simp only [List.map_cons, List.any_cons, ih, covers_clamp img r x y hx]

lemma image_eq (a b : Image) (hw : a.width = b.width) (hh : a.height = b.height)
    (hp : ∀ x y, a.pix x y = b.pix x y) : a = b := by
  cases a
  cases b
  simp only [Image.mk.injEq]
  refine ⟨hw, hh, ?_⟩
  funext x y
  exact hp x y

lemma renderAll_pix (img : Image) (rs : List Box) (x y : Int) :
    (renderAll img rs).pix x y =
      if inImage img x y && rs.any (fun r => coversB r x y) then 0
      else img.pix x y := rfl

lemma inImage_renderAll (img : Image) (rs : List Box) (x y : Int) :
    inImage (renderAll img rs) x y = inImage img x y := rfl

/-! Claim theorems. -/

/-- Claim C1, counterexample.  The claim states that text in any shape other
than the two exact surface forms yields no Strategy A match, naming a 4-4-4
prefix of a longer string as an example.  The code applies re.match, a prefix
match, so this token does match Strategy A while being of neither claimed
surface form. -/
theorem strategyA_claimC1_counterexample :
    strategyA ("1234 5678 9012X").data = true ∧
      specFormA ("1234 5678 9012X").data = false :=
  ⟨by decide, by decide⟩

/-- Claim C1, corrected: a token text yields a Strategy A match exactly when
it starts with twelve digits followed by a word boundary, or starts with the
three-groups-of-four spaced pattern, with arbitrary trailing text allowed in
both cases. -/
theorem strategyA_prefix_characterization (s : List Char) :
    strategyA s = true ↔ TwelveDigitStart s ∨ Spaced444Start s := by
  simp only [strategyA, Bool.or_eq_true]
  rw [matchTwelve_iff, matchSpaced_iff]

/-- Claim C9: applying the Renderer twice with the same regions is
pixel-identical to applying it once; painting opaque black over already black
pixels changes nothing. -/
theorem renderAll_idempotent (img : Image) (rs : List Box) :
    renderAll (renderAll img rs) rs = renderAll img rs := by
  refine image_eq _ _ rfl rfl (fun x y => ?_)
  rw [renderAll_pix (renderAll img rs) rs, inImage_renderAll, renderAll_pix]
  by_cases h : (inImage img x y && rs.any fun r => coversB r x y) = true
  · simp [h]
  · simp [h]

/-- Claim C7, counterexample.  The claim states that every rectangle handed
to the Renderer is clipped to the image bounds.  No clipping exists in the
code: a matching token whose bounding box starts left of and above the origin
produces a region with negative corner coordinates, handed as-is to the
drawing call; for a 50 by 20 image it violates the claimed invariant. -/
theorem collectRegions_claimC7_counterexample :
    Solution1.collectRegions
        [Solution1.OcrResult.flat (-10, -5) (100, 5) ("123456789012").data 80] =
      [Box.mk (-10) (-5) 62 5] ∧
    withinBounds (Box.mk (-10) (-5) 62 5) 50 20 = false :=
  ⟨by decide, by decide⟩

/-- Claim C7, corrected: the pipeline applies no clipping before handing
rectangles to the Renderer, but rendering with the raw rectangles is
pixel-identical to rendering with the rectangles clamped to the image bounds,
because the drawing primitive only writes pixels inside the buffer. -/
theorem renderAll_clamp (img : Image) (rs : List Box) :
    renderAll img rs = renderAll img (rs.map (clampRect img)) := by
  refine image_eq _ _ rfl rfl (fun x y => ?_)
  rw [renderAll_pix, renderAll_pix]
  by_cases hx : inImage img x y = true
  · rw [any_covers_clamp img rs x y hx]
  · rw [Bool.not_eq_true] at hx
    rw [hx]
    simp only [Bool.false_and, if_false]

/-- Claim C5, counterexample.  The claim states that a failed decode surfaces
the typed invalid-image error (HTTP 400).  The inner raise is caught by the
blanket handler, so the caller receives a generic HTTP 500 processing error
wrapping the message instead; the typed identity is lost. -/
theorem process_claimC5_counterexample :
    Solution1.process_aadhar_image none [] =
      Except.error (Solution1.PyExc.http 500
        ("Error processing image: " ++
          Solution1.strExc (Solution1.PyExc.http 400 "Invalid image data"))) ∧
    ("Error processing image: " ++
        Solution1.strExc (Solution1.PyExc.http 400 "Invalid image data") =
      "Error processing image: 400: Invalid image data") ∧
    Solution1.process_aadhar_image none [] ≠
      Except.error (Solution1.PyExc.http 400 "Invalid image data") := by
  refine ⟨rfl, by decide, ?_⟩
  intro hc
  have h500 := congrArg Solution1.errStatus hc
  simp [Solution1.process_aadhar_image, Solution1.errStatus] at h500

/-- Claim C5, corrected: when decoding fails the pipeline produces no image
at all, and the error surfaced to the caller is the HTTP 500 processing error
wrapping the invalid-image HTTP 400 error, whatever the OCR results are. -/
theorem process_decode_failure (results : List Solution1.OcrResult) :
    Solution1.process_aadhar_image none results =
      Except.error (Solution1.PyExc.http 500
        ("Error processing image: " ++
          Solution1.strExc (Solution1.PyExc.http 400 "Invalid image data"))) ∧
    ∀ img : Image, Solution1.process_aadhar_image none results ≠ Except.ok img := by
  refine ⟨rfl, ?_⟩
  intro img hc
  have h := congrArg Solution1.errStatus hc
  simp [Solution1.process_aadhar_image, Solution1.errStatus] at h

/-- Witness for the corrected claim C5 theorem at a concrete input. -/
theorem process_decode_failure_witness :
    Solution1.process_aadhar_image none [] =
      Except.error (Solution1.PyExc.http 500
        ("Error processing image: " ++
          Solution1.strExc (Solution1.PyExc.http 400 "Invalid image data"))) :=
  (process_decode_failure []).1

/-- Claim C4: a Strategy A match keeps the original top-left corner and the
bottom edge, and the right edge of the redaction rectangle is the left edge
plus the floor of 0.66 times the text width, on both OCR result shapes. -/
theorem regionOfResult_truncation (x1 y1 x2 y2 : Int) (p2 p4 : Int × Int)
    (text : List Char) (conf : Int) (hmatch : strategyA text = true) (hw : x1 ≤ x2) :
    Solution1.regionOfResult (Solution1.OcrResult.quad (x1, y1) p2 (x2, y2) p4 text conf) =
      some (Box.mk x1 y1 (x1 + ⌊(0.66 : ℚ) * ((x2 : ℚ) - (x1 : ℚ))⌋) y2) ∧
    Solution1.regionOfResult (Solution1.OcrResult.flat (x1, y1) (x2, y2) text conf) =
      some (Box.mk x1 y1 (x1 + ⌊(0.66 : ℚ) * ((x2 : ℚ) - (x1 : ℚ))⌋) y2) := by
  have hfl : Solution1.pyTrunc066 (x2 - x1) = ⌊(0.66 : ℚ) * ((x2 : ℚ) - (x1 : ℚ))⌋ := by
    rw [pyTrunc066_eq_floor (x2 - x1) (by omega)]
    congr 1
    push_cast
    ring
  constructor <;> simp [Solution1.regionOfResult, hmatch, hfl]

/-- Witness for the claim C4 theorem at a concrete input: a single token
holding the twelve digits, box from 0 to 100 wide. -/
theorem regionOfResult_truncation_witness :
    strategyA ("123456789012").data = true ∧ (0 : Int) ≤ 100 ∧
    Solution1.regionOfResult
        (Solution1.OcrResult.flat (0, 0) (100, 10) ("123456789012").data 80) =
      some (Box.mk 0 0 (0 + ⌊(0.66 : ℚ) * ((100 : ℚ) - (0 : ℚ))⌋) 10) :=
  ⟨by decide, by decide,
    (regionOfResult_truncation 0 0 100 10 (0, 0) (0, 0) ("123456789012").data 80
      (by decide) (by decide)).2⟩

/-- Claim C2: when a non-numeric token flushes the buffer, a match is emitted
exactly when the space-joined buffered text fully matches the 4-4-4 spaced
pattern; and over the reachable buffers of the scan that happens exactly when
the buffer holds three four-digit groups, so splits into 2 or 4 groups and
longer numeric runs never match. -/
theorem flush_emission_characterization (ts : List OcrTok) (t : OcrTok)
    (hn : isPyDigitStr t.text = false) :
    ((Solution2.step (Solution2.extractState ts) t).texts =
        (Solution2.extractState ts).texts ++
          [Solution2.joinSp (Solution2.extractState ts).curToks] ↔
      fullmatch444 (Solution2.joinSp (Solution2.extractState ts).curToks) = true) ∧
    (fullmatch444 (Solution2.joinSp (Solution2.extractState ts).curToks) = true ↔
      ∃ g1 g2 g3, (Solution2.extractState ts).curToks = [g1, g2, g3] ∧
        group4 g1 = true ∧ group4 g2 = true ∧ group4 g3 = true) := by
  constructor
  · by_cases hf : fullmatch444 (Solution2.joinSp (Solution2.extractState ts).curToks) = true
    · constructor
      · intro _
        exact hf
      · intro _
        simp [Solution2.step, hn, hf]
    · rw [Bool.not_eq_true] at hf
      constructor
      · intro he
        exfalso
        simp [Solution2.step, hn, hf] at he
      · intro hc
        rw [hc] at hf
        exact absurd hf (by simp)
  · exact fullmatch_joinSp_iff (binv_extractState ts).1

/-- Witness for the claim C2 theorem: a concrete stream holding the three
groups, flushed by a concrete non-numeric token. -/
theorem flush_emission_characterization_witness :
    isPyDigitStr tokSep.text = false ∧
    (((Solution2.step (Solution2.extractState toks444) tokSep).texts =
        (Solution2.extractState toks444).texts ++
          [Solution2.joinSp (Solution2.extractState toks444).curToks] ↔
      fullmatch444 (Solution2.joinSp (Solution2.extractState toks444).curToks) = true) ∧
    (fullmatch444 (Solution2.joinSp (Solution2.extractState toks444).curToks) = true ↔
      ∃ g1 g2 g3, (Solution2.extractState toks444).curToks = [g1, g2, g3] ∧
        group4 g1 = true ∧ group4 g2 = true ∧ group4 g3 = true)) :=
  ⟨by decide, flush_emission_characterization toks444 tokSep (by decide)⟩

/-- Claim C3: whenever a flush emits a match, the buffer holds exactly three
boxes and the emitted redaction rectangle is the componentwise min and max
union of the first two of them only, with no truncation; the third box never
contributes. -/
theorem flush_region_first_two (ts : List OcrTok) (t : OcrTok)
    (hn : isPyDigitStr t.text = false)
    (hf : fullmatch444 (Solution2.joinSp (Solution2.extractState ts).curToks) = true) :
    ∃ b1 b2 b3, (Solution2.extractState ts).curBoxes = [b1, b2, b3] ∧
      (Solution2.step (Solution2.extractState ts) t).boxes =
        (Solution2.extractState ts).boxes ++
          [Box.mk (min b1.x1 b2.x1) (min b1.y1 b2.y1)
            (max b1.x2 b2.x2) (max b1.y2 b2.y2)] := by
  have hinv := binv_extractState ts
  obtain ⟨g1, g2, g3, htoks, _, _, _⟩ := (fullmatch_joinSp_iff hinv.1).mp hf
  have hlen : (Solution2.extractState ts).curBoxes.length = 3 := by
    rw [← hinv.2, htoks]
    rfl
  obtain ⟨b1, b2, b3, hboxes⟩ := length_eq_three hlen
  refine ⟨b1, b2, b3, hboxes, ?_⟩
  simp [Solution2.step, hn, hf, hboxes, Solution2.unionFirstTwo]

/-- Witness for the claim C3 theorem at the concrete three-group stream. -/
theorem flush_region_first_two_witness :
    isPyDigitStr tokSep.text = false ∧
    fullmatch444 (Solution2.joinSp (Solution2.extractState toks444).curToks) = true ∧
    ∃ b1 b2 b3, (Solution2.extractState toks444).curBoxes = [b1, b2, b3] ∧
      (Solution2.step (Solution2.extractState toks444) tokSep).boxes =
        (Solution2.extractState toks444).boxes ++
          [Box.mk (min b1.x1 b2.x1) (min b1.y1 b2.y1)
            (max b1.x2 b2.x2) (max b1.y2 b2.y2)] :=
  ⟨by decide, by decide, flush_region_first_two toks444 tokSep (by decide) (by decide)⟩

/-- Claim C10: whenever a flush emits, the buffer holds exactly three texts,
each a four-digit group, with exactly one recorded box per text, so the
first-two slice and its min and max union are always well-defined. -/
theorem flush_buffer_shape (ts : List OcrTok) (t : OcrTok)
    (hn : isPyDigitStr t.text = false)
    (hemit : (Solution2.step (Solution2.extractState ts) t).texts.length =
      (Solution2.extractState ts).texts.length + 1) :
    ∃ g1 g2 g3 b1 b2 b3, (Solution2.extractState ts).curToks = [g1, g2, g3] ∧
      (Solution2.extractState ts).curBoxes = [b1, b2, b3] ∧
      group4 g1 = true ∧ group4 g2 = true ∧ group4 g3 = true := by
  have hinv := binv_extractState ts
  have hf : fullmatch444 (Solution2.joinSp (Solution2.extractState ts).curToks) = true := by
    by_cases hf : fullmatch444 (Solution2.joinSp (Solution2.extractState ts).curToks) = true
    · exact hf
    · exfalso
      rw [Bool.not_eq_true] at hf
      simp [Solution2.step, hn, hf] at hemit
  obtain ⟨g1, g2, g3, htoks, hg1, hg2, hg3⟩ := (fullmatch_joinSp_iff hinv.1).mp hf
  have hlen : (Solution2.extractState ts).curBoxes.length = 3 := by
    rw [← hinv.2, htoks]
    rfl
  obtain ⟨b1, b2, b3, hboxes⟩ := length_eq_three hlen
  exact ⟨g1, g2, g3, b1, b2, b3, htoks, hboxes, hg1, hg2, hg3⟩

/-- Witness for the claim C10 theorem at the concrete three-group stream. -/
theorem flush_buffer_shape_witness :
    isPyDigitStr tokSep.text = false ∧
    (Solution2.step (Solution2.extractState toks444) tokSep).texts.length =
      (Solution2.extractState toks444).texts.length + 1 ∧
    ∃ g1 g2 g3 b1 b2 b3, (Solution2.extractState toks444).curToks = [g1, g2, g3] ∧
      (Solution2.extractState toks444).curBoxes = [b1, b2, b3] ∧
      group4 g1 = true ∧ group4 g2 = true ∧ group4 g3 = true :=
  ⟨by decide, by decide, flush_buffer_shape toks444 tokSep (by decide) (by decide)⟩

/-- Claim C8: a numeric suffix of the stream never flushes, so the emitted
texts and boxes of a stream ending in numeric tokens are exactly those of the
stream with that suffix removed; in particular an identifier whose groups
occupy the last tokens produces no match and no region. -/
theorem trailing_buffer_never_flushed (ts suffix : List OcrTok)
    (h : ∀ t ∈ suffix, isPyDigitStr t.text = true) :
    Solution2.extract_text_and_bboxes (ts ++ suffix) =
      Solution2.extract_text_and_bboxes ts := by
  have hfold := foldl_numeric_no_emit suffix
    (ts.foldl Solution2.step (Solution2.BState.mk [] [] [] [])) h
  simp only [Solution2.extract_text_and_bboxes, Solution2.extractState, List.foldl_append]
  rw [hfold.1, hfold.2]

/-- Witness for the claim C8 theorem: the identifier groups at the very end
of the stream yield nothing beyond what precedes them. -/
theorem trailing_buffer_never_flushed_witness :
    (∀ t ∈ toks444, isPyDigitStr t.text = true) ∧
    Solution2.extract_text_and_bboxes ([tokSep] ++ toks444) =
      Solution2.extract_text_and_bboxes [tokSep] :=
  ⟨by decide, trailing_buffer_never_flushed [tokSep] toks444 (by decide)⟩

/-- Claim C6, counterexample.  The claim reads that a value found as a
substring of a token is enough for its box to be returned.  Here the cleaned
text of the single token contains the normalized oracle value, yet the
function returns nothing, because the token text is not purely numeric and
therefore never enters the digit-only concatenation that gates the loop. -/
theorem find_claimC6_counterexample :
    Genai.find_aadhaar_coordinates [OcrTok.mk ("1234-5678-9012").data 10 20 30 40]
        ("1234 5678 9012").data = none ∧
    Genai.substrAt (("1234 5678 9012").data.filter (fun c => !(c == ' ')))
      (Genai.cleanFragment ("1234-5678-9012").data) = true :=
  ⟨by decide, by decide⟩

/-- Claim C6, corrected: coordinates are recovered exactly when the
normalized oracle value occurs in the digit-only concatenation and, in that
case, some token has a cleaned text containing the value; the first such
token supplies the box.  Otherwise the localization returns nothing and the
masking step produces no output image at all. -/
theorem find_aadhaar_coordinates_characterization (toks : List OcrTok)
    (aadhaar : List Char) (img : Image) :
    (Genai.find_aadhaar_coordinates toks aadhaar =
      if Genai.substrAt (aadhaar.filter (fun c => !(c == ' ')))
          (Genai.normalizedDigitText toks) then
        (toks.find? (fun t => Genai.substrAt (aadhaar.filter (fun c => !(c == ' ')))
            (Genai.cleanFragment t.text))).map (fun t => (t.left, t.top, t.w, t.h))
      else none) ∧
    Genai.mask_aadhaar_number img toks aadhaar =
      (Genai.find_aadhaar_coordinates toks aadhaar).map
        (fun r => renderAll img [Box.mk r.1 r.2.1 (r.1 + r.2.2.1) (r.2.1 + r.2.2.2)]) := by
  constructor
  · simp only [Genai.find_aadhaar_coordinates, findLoop_eq_find?]
  · rw [Genai.mask_aadhaar_number]
    cases hf : Genai.find_aadhaar_coordinates toks aadhaar with
    | none => simp
    | some r =>
      obtain ⟨x, y, w, h⟩ := r
      simp
